import Mathlib

/-!
Verification of the glFTPD user-statistics reset tool (pyreset.py).

Lines of text are modelled as `List Char`.  Python string operations used by
the source are embedded directly:
  - `tag in line`            becomes `containsSub tag line`
  - `line.startswith(p)`     becomes `startsWith p line`
  - `line.split()`           becomes `pysplit line`
The record processor `process_userfile` (pyreset.py lines 32-94) is embedded
as a pure state-threading recursion over the list of lines; its per-line body
is `processLine`, which also returns the new `in_section` state and whether a
reset-dispatch branch fired (the source sets `modified = True` exactly when a
branch fires).
-/

namespace PyReset

/-- ASCII whitespace recognized by Python str.split with no arguments. -/
def isPySpace (c : Char) : Bool :=
  c == ' ' || c == '\t' || c == '\n' || c == '\r' || c == '\x0b' || c == '\x0c'

/-- Accumulator-based tokenizer: `pysplitAux rest acc` scans `rest`, with
`acc` holding the characters of the current token in reverse order. -/
def pysplitAux : List Char → List Char → List (List Char)
  | [], acc => if acc = [] then [] else [acc.reverse]
  | c :: cs, acc =>
      if isPySpace c then
        if acc = [] then pysplitAux cs [] else acc.reverse :: pysplitAux cs []
      else pysplitAux cs (c :: acc)

/-- Embedding of Python line.split(): split on runs of whitespace, with no
empty tokens produced. -/
def pysplit (l : List Char) : List (List Char) := pysplitAux l []

/-- Embedding of Python line.startswith(p): p is a leading segment of l. -/
def startsWith : List Char → List Char → Bool
  | [], _ => true
  | _ :: _, [] => false
  | p :: ps, c :: cs => p == c && startsWith ps cs

/-- Embedding of the Python substring test p in l. -/
def containsSub (pat : List Char) : List Char → Bool
  | [] => startsWith pat []
  | c :: cs => startsWith pat (c :: cs) || containsSub pat cs

/-- The replacement tail appended after the kept first token, from the
f-string in pyreset.py line 29. -/
def sp000 : List Char := " 0 0 0\n".toList

/-- Embedding of reset_stats_line (pyreset.py lines 21-30): if the reset
type occurs as a substring and the line splits into at least 4 whitespace
tokens, keep the first token and zero the rest; otherwise return the line. -/
def reset_stats_line (line reset_type : List Char) : List Char :=
  if containsSub reset_type line then
    if 4 ≤ (pysplit line).length then (pysplit line).headD [] ++ sp000
    else line
  else line

/-- The four reset flags passed to process_userfile. -/
structure Flags where
  reset_day : Bool
  reset_week : Bool
  reset_month : Bool
  reset_all : Bool

def secTag : List Char := "[SECTION]".toList

def endSecTag : List Char := "[ENDSECTION]".toList

def dayup : List Char := "DAYUP".toList

def daydn : List Char := "DAYDN".toList

def wkup : List Char := "WKUP".toList

def wkdn : List Char := "WKDN".toList

def monthup : List Char := "MONTHUP".toList

def monthdn : List Char := "MONTHDN".toList

def allup : List Char := "ALLUP".toList

def alldn : List Char := "ALLDN".toList

def dayupSp : List Char := "DAYUP ".toList

def daydnSp : List Char := "DAYDN ".toList

def wkupSp : List Char := "WKUP ".toList

def wkdnSp : List Char := "WKDN ".toList

def monthupSp : List Char := "MONTHUP ".toList

def monthdnSp : List Char := "MONTHDN ".toList

def allupSp : List Char := "ALLUP ".toList

def alldnSp : List Char := "ALLDN ".toList

/-- The ordered dispatch table of the elif chain in pyreset.py lines 57-80:
each entry pairs the governing flag value with its prefix token. -/
def dispatchList (fl : Flags) : List (Bool × List Char) :=
  [(fl.reset_day, dayup), (fl.reset_day, daydn),
   (fl.reset_week, wkup), (fl.reset_week, wkdn),
   (fl.reset_month, monthup), (fl.reset_month, monthdn),
   (fl.reset_all, allup), (fl.reset_all, alldn)]

/-- Embedding of the loop body of process_userfile (pyreset.py lines 42-82).
Returns the emitted line, the new in_section state, and whether one of the
eight dispatch branches fired (each such branch runs modified = True). -/
def processLine (fl : Flags) (in_section : Bool) (line : List Char) :
    List Char × Bool × Bool :=
  if containsSub secTag line then (line, true, false)
  else if containsSub endSecTag line then (line, false, false)
  else if in_section then
    if fl.reset_day && startsWith dayupSp line then
      (reset_stats_line line dayup, in_section, true)
    else if fl.reset_day && startsWith daydnSp line then
      (reset_stats_line line daydn, in_section, true)
    else if fl.reset_week && startsWith wkupSp line then
      (reset_stats_line line wkup, in_section, true)
    else if fl.reset_week && startsWith wkdnSp line then
      (reset_stats_line line wkdn, in_section, true)
    else if fl.reset_month && startsWith monthupSp line then
      (reset_stats_line line monthup, in_section, true)
    else if fl.reset_month && startsWith monthdnSp line then
      (reset_stats_line line monthdn, in_section, true)
    else if fl.reset_all && startsWith allupSp line then
      (reset_stats_line line allup, in_section, true)
    else if fl.reset_all && startsWith alldnSp line then
      (reset_stats_line line alldn, in_section, true)
    else (line, in_section, false)
  else (line, in_section, false)

/-- Embedding of the whole loop of process_userfile: threads the in_section
state through the lines, collecting the emitted lines and the disjunction of
the per-line modified assignments. -/
def processLines (fl : Flags) : Bool → List (List Char) → List (List Char) × Bool
  | _, [] => ([], false)
  | s, l :: ls =>
      let r := processLine fl s l
      let rest := processLines fl r.2.1 ls
      (r.1 :: rest.1, r.2.2 || rest.2)

/-- The pure core of process_userfile (pyreset.py lines 32-90): the new line
sequence and the modified flag, starting with in_section = False.  The source
rewrites the file exactly when the flag is true and returns that flag. -/
def process_userfile (fl : Flags) (lines : List (List Char)) :
    List (List Char) × Bool :=
  processLines fl false lines

/-- The in_section state held just before the line at index i is processed. -/
def stateAt (fl : Flags) (s : Bool) : List (List Char) → Nat → Bool
  | [], _ => s
  | _ :: _, 0 => s
  | l :: ls, i + 1 => stateAt fl (processLine fl s l).2.1 ls i

/-- Python weekday index of Monday (pyreset.py line 161 comment). -/
def mondayIndex : Nat := 0

/-- Python weekday index of Sunday (pyreset.py line 161 comment). -/
def sundayIndex : Nat := 6

/-- Embedding of the date-derived default selector of main (pyreset.py lines
159-171): when no explicit flag is given, day is always reset, week is reset
when the current weekday equals the configured week-start day, and month is
reset on the first day of the month. -/
def defaultSelector (monday : Bool) (weekday dayOfMonth : Nat) : Flags :=
  let reset_week_day : Nat := if monday then mondayIndex else sundayIndex
  { reset_day := true
    reset_week := weekday == reset_week_day
    reset_month := dayOfMonth == 1
    reset_all := false }

/-- The error report printed by the except handler of process_userfile
(pyreset.py line 93). -/
def errorReport (path e : List Char) : List Char :=
  "Error processing ".toList ++ path ++ ": ".toList ++ e

/-- Embedding of one call of process_userfile on a file whose read outcome is
given as an Except value: a raised I/O error is caught, reported, and the
call returns false; otherwise the pure core decides the returned flag
(pyreset.py lines 34-36 and 92-94). -/
def process_userfile_run (path : List Char)
    (readResult : Except (List Char) (List (List Char))) (fl : Flags) :
    Bool × Option (List Char) :=
  match readResult with
  | Except.error e => (false, some (errorReport path e))
  | Except.ok lines => ((processLines fl false lines).2, none)

/-- Embedding of the batch loop of main (pyreset.py lines 185-189): the
success counter counts the true results, and every file is processed in
order regardless of earlier failures. -/
def runBatch (fl : Flags) :
    List (List Char × Except (List Char) (List (List Char))) →
    Nat × List (List Char)
  | [] => (0, [])
  | f :: rest =>
      let r := process_userfile_run f.1 f.2 fl
      let rb := runBatch fl rest
      ((if r.1 then 1 else 0) + rb.1, r.2.toList ++ rb.2)

/-- The eight counter prefix tokens, in dispatch order. -/
def resetTags : List (List Char) :=
  [dayup, daydn, wkup, wkdn, monthup, monthdn, allup, alldn]

/-- A selector with every flag cleared. -/
def noneFlags : Flags := ⟨false, false, false, false⟩

/-- A selector with only the day flag set. -/
def dayFlags : Flags := ⟨true, false, false, false⟩

/-- A section-opening marker line. -/
def secLine : List Char := "[SECTION]\n".toList

/-- A well-formed day-upload counter line. -/
def exDayLine : List Char := "DAYUP 1 2 3\n".toList

/-- A malformed day-upload counter line with only 2 tokens. -/
def malDayLine : List Char := "DAYUP 5\n".toList


theorem startsWith_iff (p l : List Char) : startsWith p l = true ↔ ∃ r, l = p ++ r := by
  induction p generalizing l with
  | nil => simp [startsWith]
  | cons a ps ih =>
    cases l with
    | nil => simp [startsWith]
    | cons c cs =>
      simp only [startsWith, Bool.and_eq_true, beq_iff_eq, ih, List.cons_append,
        List.cons.injEq]
      constructor
      · rintro ⟨rfl, r, rfl⟩; exact ⟨r, rfl, rfl⟩
      · rintro ⟨r, rfl, rfl⟩; exact ⟨rfl, r, rfl⟩

theorem startsWith_append_self (p r : List Char) : startsWith p (p ++ r) = true :=
  (startsWith_iff p (p ++ r)).mpr ⟨r, rfl⟩

theorem containsSub_of_startsWith (p l : List Char) (h : startsWith p l = true) :
    containsSub p l = true := by
  cases l with
  | nil => exact h
  | cons c cs => simp [containsSub, h]

theorem startsWith_compat (l p q : List Char) (hp : startsWith p l = true)
    (hq : startsWith q l = true) :
    startsWith p q = true ∨ startsWith q p = true := by
  obtain ⟨r, rfl⟩ := (startsWith_iff p l).mp hp
  obtain ⟨s, hs⟩ := (startsWith_iff q (p ++ r)).mp hq
  rcases List.append_eq_append_iff.mp hs with ⟨a, ha, _⟩ | ⟨a, ha, _⟩
  · exact Or.inl ((startsWith_iff p q).mpr ⟨a, ha⟩)
  · exact Or.inr ((startsWith_iff q p).mpr ⟨a, ha⟩)

theorem startsWith_excl (l p q : List Char) (hpq : startsWith p q = false)
    (hqp : startsWith q p = false) (hp : startsWith p l = true) :
    startsWith q l = false := by
  cases hq : startsWith q l with
  | false => rfl
  | true =>
    rcases startsWith_compat l p q hp hq with h | h
    · rw [h] at hpq; exact absurd hpq (by simp)
    · rw [h] at hqp; exact absurd hqp (by simp)

theorem pysplitAux_token (t : List Char) (ht : t ≠ [])
    (hns : ∀ c ∈ t, isPySpace c = false) :
    ∀ (r acc : List Char),
      pysplitAux (t ++ ' ' :: r) acc = (acc.reverse ++ t) :: pysplitAux r [] := by
  induction t with
  | nil => exact absurd rfl ht
  | cons c cs ih =>
    intro r acc
    have hc : isPySpace c = false := hns c (by simp)
    by_cases hcs : cs = []
    · subst hcs
      have hsp : isPySpace ' ' = true := by decide
      simp [pysplitAux, hc, hsp]
    · have hns2 : ∀ x ∈ cs, isPySpace x = false := fun x hx => hns x (by simp [hx])
      calc pysplitAux ((c :: cs) ++ ' ' :: r) acc
          = pysplitAux (cs ++ ' ' :: r) (c :: acc) := by simp [pysplitAux, hc]
        _ = ((c :: acc).reverse ++ cs) :: pysplitAux r [] := ih hcs hns2 r (c :: acc)
        _ = (acc.reverse ++ c :: cs) :: pysplitAux r [] := by simp

theorem pysplit_cons (t r : List Char) (ht : t ≠ [])
    (hns : ∀ c ∈ t, isPySpace c = false) :
    pysplit (t ++ ' ' :: r) = t :: pysplit r := by
  simpa [pysplit] using pysplitAux_token t ht hns r []

theorem reset_eq_of_starts (t l : List Char) (ht : t ≠ [])
    (hns : ∀ c ∈ t, isPySpace c = false)
    (hp : startsWith (t ++ [' ']) l = true) (hlen : 4 ≤ (pysplit l).length) :
    reset_stats_line l t = t ++ sp000 := by
  obtain ⟨r, rfl⟩ := (startsWith_iff (t ++ [' ']) l).mp hp
  have hl : (t ++ [' ']) ++ r = t ++ ' ' :: r := by simp
  rw [hl] at hlen ⊢
  have hsplit : pysplit (t ++ ' ' :: r) = t :: pysplit r := pysplit_cons t r ht hns
  have hcont : containsSub t (t ++ ' ' :: r) = true :=
    containsSub_of_startsWith t _ (startsWith_append_self t (' ' :: r))
  have hlen2 : 4 ≤ (t :: pysplit r).length := hsplit ▸ hlen
  unfold reset_stats_line
  rw [if_pos hcont, hsplit, if_pos hlen2]
  simp

theorem reset_stats_line_short (l t : List Char) (h : (pysplit l).length < 4) :
    reset_stats_line l t = l := by
  unfold reset_stats_line
  by_cases hc : containsSub t l = true
  · simp [hc, Nat.not_le.mpr h]
  · simp [hc]

theorem band_left {a b : Bool} (h : (a && b) = true) : a = true := by
  rcases a <;> rcases b <;> simp_all

theorem band_right {a b : Bool} (h : (a && b) = true) : b = true := by
  rcases a <;> rcases b <;> simp_all

theorem processLine_again :
    ∀ d w m a : Bool, ∀ p ∈ dispatchList ⟨d, w, m, a⟩, p.1 = true →
      processLine ⟨d, w, m, a⟩ true (p.2 ++ sp000) = (p.2 ++ sp000, true, true) := by
  decide

theorem processLine_outside (fl : Flags) (s : Bool) (l : List Char)
    (h : s = false ∨ containsSub secTag l = true ∨ containsSub endSecTag l = true) :
    (processLine fl s l).1 = l := by
  rcases h with rfl | h | h
  · by_cases hsec : containsSub secTag l = true
    · simp [processLine, hsec]
    · by_cases hend : containsSub endSecTag l = true
      · simp [processLine, hsec, hend]
      · simp [processLine, hsec, hend]
  · simp [processLine, h]
  · by_cases hsec : containsSub secTag l = true
    · simp [processLine, hsec]
    · simp [processLine, hsec, h]

theorem processLine_not_fired (fl : Flags) (s : Bool) (l : List Char)
    (h : (processLine fl s l).2.2 = false) : (processLine fl s l).1 = l := by
  by_cases hsec : containsSub secTag l = true
  · simp [processLine, hsec]
  · by_cases hend : containsSub endSecTag l = true
    · simp [processLine, hsec, hend]
    · cases s with
      | false => simp [processLine, hsec, hend]
      | true =>
        by_cases g1 : (fl.reset_day && startsWith dayupSp l) = true
        · simp [processLine, hsec, hend, g1] at h
        ·
          by_cases g2 : (fl.reset_day && startsWith daydnSp l) = true
          · simp [processLine, hsec, hend, g1, g2] at h
          ·
            by_cases g3 : (fl.reset_week && startsWith wkupSp l) = true
            · simp [processLine, hsec, hend, g1, g2, g3] at h
            ·
              by_cases g4 : (fl.reset_week && startsWith wkdnSp l) = true
              · simp [processLine, hsec, hend, g1, g2, g3, g4] at h
              ·
                by_cases g5 : (fl.reset_month && startsWith monthupSp l) = true
                · simp [processLine, hsec, hend, g1, g2, g3, g4, g5] at h
                ·
                  by_cases g6 : (fl.reset_month && startsWith monthdnSp l) = true
                  · simp [processLine, hsec, hend, g1, g2, g3, g4, g5, g6] at h
                  ·
                    by_cases g7 : (fl.reset_all && startsWith allupSp l) = true
                    · simp [processLine, hsec, hend, g1, g2, g3, g4, g5, g6, g7] at h
                    ·
                      by_cases g8 : (fl.reset_all && startsWith alldnSp l) = true
                      · simp [processLine, hsec, hend, g1, g2, g3, g4, g5, g6, g7, g8] at h
                      ·
                        simp [processLine, hsec, hend, g1, g2, g3, g4, g5, g6, g7, g8]

theorem processLine_idem (fl : Flags) (s : Bool) (l : List Char) :
    processLine fl s (processLine fl s l).1 = processLine fl s l := by
  by_cases hsec : containsSub secTag l = true
  · simp [processLine, hsec]
  · by_cases hend : containsSub endSecTag l = true
    · simp [processLine, hsec, hend]
    · cases s with
      | false => simp [processLine, hsec, hend]
      | true =>
        by_cases g1 : (fl.reset_day && startsWith dayupSp l) = true
        · by_cases hlen : 4 ≤ (pysplit l).length
          · have hst : startsWith (dayup ++ [' ']) l = true := by
              rw [show dayup ++ [' '] = dayupSp from by decide]
              exact band_right g1
            have hr : reset_stats_line l dayup = dayup ++ sp000 :=
              reset_eq_of_starts dayup l (by decide) (by decide) hst hlen
            have hout : (processLine fl true l).1 = dayup ++ sp000 := by
              simp [processLine, hsec, hend, g1, hr]
            rw [hout]
            have hagain : processLine fl true (dayup ++ sp000) = (dayup ++ sp000, true, true) :=
              processLine_again fl.reset_day fl.reset_week fl.reset_month fl.reset_all
                (fl.reset_day, dayup) (by simp [dispatchList]) (band_left g1)
            rw [hagain]
            simp [processLine, hsec, hend, g1, hr]
          · have hr : reset_stats_line l dayup = l :=
              reset_stats_line_short l dayup (by omega)
            have hout : (processLine fl true l).1 = l := by
              simp [processLine, hsec, hend, g1, hr]
            rw [hout]
        ·
          by_cases g2 : (fl.reset_day && startsWith daydnSp l) = true
          · by_cases hlen : 4 ≤ (pysplit l).length
            · have hst : startsWith (daydn ++ [' ']) l = true := by
                rw [show daydn ++ [' '] = daydnSp from by decide]
                exact band_right g2
              have hr : reset_stats_line l daydn = daydn ++ sp000 :=
                reset_eq_of_starts daydn l (by decide) (by decide) hst hlen
              have hout : (processLine fl true l).1 = daydn ++ sp000 := by
                simp [processLine, hsec, hend, g1, g2, hr]
              rw [hout]
              have hagain : processLine fl true (daydn ++ sp000) = (daydn ++ sp000, true, true) :=
                processLine_again fl.reset_day fl.reset_week fl.reset_month fl.reset_all
                  (fl.reset_day, daydn) (by simp [dispatchList]) (band_left g2)
              rw [hagain]
              simp [processLine, hsec, hend, g1, g2, hr]
            · have hr : reset_stats_line l daydn = l :=
                reset_stats_line_short l daydn (by omega)
              have hout : (processLine fl true l).1 = l := by
                simp [processLine, hsec, hend, g1, g2, hr]
              rw [hout]
          ·
            by_cases g3 : (fl.reset_week && startsWith wkupSp l) = true
            · by_cases hlen : 4 ≤ (pysplit l).length
              · have hst : startsWith (wkup ++ [' ']) l = true := by
                  rw [show wkup ++ [' '] = wkupSp from by decide]
                  exact band_right g3
                have hr : reset_stats_line l wkup = wkup ++ sp000 :=
                  reset_eq_of_starts wkup l (by decide) (by decide) hst hlen
                have hout : (processLine fl true l).1 = wkup ++ sp000 := by
                  simp [processLine, hsec, hend, g1, g2, g3, hr]
                rw [hout]
                have hagain : processLine fl true (wkup ++ sp000) = (wkup ++ sp000, true, true) :=
                  processLine_again fl.reset_day fl.reset_week fl.reset_month fl.reset_all
                    (fl.reset_week, wkup) (by simp [dispatchList]) (band_left g3)
                rw [hagain]
                simp [processLine, hsec, hend, g1, g2, g3, hr]
              · have hr : reset_stats_line l wkup = l :=
                  reset_stats_line_short l wkup (by omega)
                have hout : (processLine fl true l).1 = l := by
                  simp [processLine, hsec, hend, g1, g2, g3, hr]
                rw [hout]
            ·
              by_cases g4 : (fl.reset_week && startsWith wkdnSp l) = true
              · by_cases hlen : 4 ≤ (pysplit l).length
                · have hst : startsWith (wkdn ++ [' ']) l = true := by
                    rw [show wkdn ++ [' '] = wkdnSp from by decide]
                    exact band_right g4
                  have hr : reset_stats_line l wkdn = wkdn ++ sp000 :=
                    reset_eq_of_starts wkdn l (by decide) (by decide) hst hlen
                  have hout : (processLine fl true l).1 = wkdn ++ sp000 := by
                    simp [processLine, hsec, hend, g1, g2, g3, g4, hr]
                  rw [hout]
                  have hagain : processLine fl true (wkdn ++ sp000) = (wkdn ++ sp000, true, true) :=
                    processLine_again fl.reset_day fl.reset_week fl.reset_month fl.reset_all
                      (fl.reset_week, wkdn) (by simp [dispatchList]) (band_left g4)
                  rw [hagain]
                  simp [processLine, hsec, hend, g1, g2, g3, g4, hr]
                · have hr : reset_stats_line l wkdn = l :=
                    reset_stats_line_short l wkdn (by omega)
                  have hout : (processLine fl true l).1 = l := by
                    simp [processLine, hsec, hend, g1, g2, g3, g4, hr]
                  rw [hout]
              ·
                by_cases g5 : (fl.reset_month && startsWith monthupSp l) = true
                · by_cases hlen : 4 ≤ (pysplit l).length
                  · have hst : startsWith (monthup ++ [' ']) l = true := by
                      rw [show monthup ++ [' '] = monthupSp from by decide]
                      exact band_right g5
                    have hr : reset_stats_line l monthup = monthup ++ sp000 :=
                      reset_eq_of_starts monthup l (by decide) (by decide) hst hlen
                    have hout : (processLine fl true l).1 = monthup ++ sp000 := by
                      simp [processLine, hsec, hend, g1, g2, g3, g4, g5, hr]
                    rw [hout]
                    have hagain : processLine fl true (monthup ++ sp000) = (monthup ++ sp000, true, true) :=
                      processLine_again fl.reset_day fl.reset_week fl.reset_month fl.reset_all
                        (fl.reset_month, monthup) (by simp [dispatchList]) (band_left g5)
                    rw [hagain]
                    simp [processLine, hsec, hend, g1, g2, g3, g4, g5, hr]
                  · have hr : reset_stats_line l monthup = l :=
                      reset_stats_line_short l monthup (by omega)
                    have hout : (processLine fl true l).1 = l := by
                      simp [processLine, hsec, hend, g1, g2, g3, g4, g5, hr]
                    rw [hout]
                ·
                  by_cases g6 : (fl.reset_month && startsWith monthdnSp l) = true
                  · by_cases hlen : 4 ≤ (pysplit l).length
                    · have hst : startsWith (monthdn ++ [' ']) l = true := by
                        rw [show monthdn ++ [' '] = monthdnSp from by decide]
                        exact band_right g6
                      have hr : reset_stats_line l monthdn = monthdn ++ sp000 :=
                        reset_eq_of_starts monthdn l (by decide) (by decide) hst hlen
                      have hout : (processLine fl true l).1 = monthdn ++ sp000 := by
                        simp [processLine, hsec, hend, g1, g2, g3, g4, g5, g6, hr]
                      rw [hout]
                      have hagain : processLine fl true (monthdn ++ sp000) = (monthdn ++ sp000, true, true) :=
                        processLine_again fl.reset_day fl.reset_week fl.reset_month fl.reset_all
                          (fl.reset_month, monthdn) (by simp [dispatchList]) (band_left g6)
                      rw [hagain]
                      simp [processLine, hsec, hend, g1, g2, g3, g4, g5, g6, hr]
                    · have hr : reset_stats_line l monthdn = l :=
                        reset_stats_line_short l monthdn (by omega)
                      have hout : (processLine fl true l).1 = l := by
                        simp [processLine, hsec, hend, g1, g2, g3, g4, g5, g6, hr]
                      rw [hout]
                  ·
                    by_cases g7 : (fl.reset_all && startsWith allupSp l) = true
                    · by_cases hlen : 4 ≤ (pysplit l).length
                      · have hst : startsWith (allup ++ [' ']) l = true := by
                          rw [show allup ++ [' '] = allupSp from by decide]
                          exact band_right g7
                        have hr : reset_stats_line l allup = allup ++ sp000 :=
                          reset_eq_of_starts allup l (by decide) (by decide) hst hlen
                        have hout : (processLine fl true l).1 = allup ++ sp000 := by
                          simp [processLine, hsec, hend, g1, g2, g3, g4, g5, g6, g7, hr]
                        rw [hout]
                        have hagain : processLine fl true (allup ++ sp000) = (allup ++ sp000, true, true) :=
                          processLine_again fl.reset_day fl.reset_week fl.reset_month fl.reset_all
                            (fl.reset_all, allup) (by simp [dispatchList]) (band_left g7)
                        rw [hagain]
                        simp [processLine, hsec, hend, g1, g2, g3, g4, g5, g6, g7, hr]
                      · have hr : reset_stats_line l allup = l :=
                          reset_stats_line_short l allup (by omega)
                        have hout : (processLine fl true l).1 = l := by
                          simp [processLine, hsec, hend, g1, g2, g3, g4, g5, g6, g7, hr]
                        rw [hout]
                    ·
                      by_cases g8 : (fl.reset_all && startsWith alldnSp l) = true
                      · by_cases hlen : 4 ≤ (pysplit l).length
                        · have hst : startsWith (alldn ++ [' ']) l = true := by
                            rw [show alldn ++ [' '] = alldnSp from by decide]
                            exact band_right g8
                          have hr : reset_stats_line l alldn = alldn ++ sp000 :=
                            reset_eq_of_starts alldn l (by decide) (by decide) hst hlen
                          have hout : (processLine fl true l).1 = alldn ++ sp000 := by
                            simp [processLine, hsec, hend, g1, g2, g3, g4, g5, g6, g7, g8, hr]
                          rw [hout]
                          have hagain : processLine fl true (alldn ++ sp000) = (alldn ++ sp000, true, true) :=
                            processLine_again fl.reset_day fl.reset_week fl.reset_month fl.reset_all
                              (fl.reset_all, alldn) (by simp [dispatchList]) (band_left g8)
                          rw [hagain]
                          simp [processLine, hsec, hend, g1, g2, g3, g4, g5, g6, g7, g8, hr]
                        · have hr : reset_stats_line l alldn = l :=
                            reset_stats_line_short l alldn (by omega)
                          have hout : (processLine fl true l).1 = l := by
                            simp [processLine, hsec, hend, g1, g2, g3, g4, g5, g6, g7, g8, hr]
                          rw [hout]
                      ·
                        have hout : (processLine fl true l).1 = l := by
                          simp [processLine, hsec, hend, g1, g2, g3, g4, g5, g6, g7, g8]
                        rw [hout]

theorem processLine_counter (fl : Flags) (l : List Char) (p : Bool × List Char)
    (hp : p ∈ dispatchList fl)
    (hsec : containsSub secTag l = false) (hend : containsSub endSecTag l = false)
    (hstart : startsWith (p.2 ++ [' ']) l = true) :
    (p.1 = false → processLine fl true l = (l, true, false)) ∧
    (p.1 = true → 4 ≤ (pysplit l).length →
      processLine fl true l = (p.2 ++ sp000, true, true)) := by
  simp only [dispatchList, List.mem_cons, List.not_mem_nil, or_false] at hp
  rcases hp with rfl | rfl | rfl | rfl | rfl | rfl | rfl | rfl
  · have hst : startsWith (dayup ++ [' ']) l = true := hstart
    have hsw : startsWith dayupSp l = true := by
      rw [show dayupSp = dayup ++ [' '] from by decide]
      exact hst
    have n1 : startsWith daydnSp l = false :=
      startsWith_excl l dayupSp daydnSp (by decide) (by decide) hsw
    have n2 : startsWith wkupSp l = false :=
      startsWith_excl l dayupSp wkupSp (by decide) (by decide) hsw
    have n3 : startsWith wkdnSp l = false :=
      startsWith_excl l dayupSp wkdnSp (by decide) (by decide) hsw
    have n4 : startsWith monthupSp l = false :=
      startsWith_excl l dayupSp monthupSp (by decide) (by decide) hsw
    have n5 : startsWith monthdnSp l = false :=
      startsWith_excl l dayupSp monthdnSp (by decide) (by decide) hsw
    have n6 : startsWith allupSp l = false :=
      startsWith_excl l dayupSp allupSp (by decide) (by decide) hsw
    have n7 : startsWith alldnSp l = false :=
      startsWith_excl l dayupSp alldnSp (by decide) (by decide) hsw
    constructor
    · intro hf
      have hf2 : fl.reset_day = false := hf
      simp [processLine, hsec, hend, hf2, n1, n2, n3, n4, n5, n6, n7]
    · intro ht hlen
      have ht2 : fl.reset_day = true := ht
      have hr : reset_stats_line l dayup = dayup ++ sp000 :=
        reset_eq_of_starts dayup l (by decide) (by decide) hst hlen
      show processLine fl true l = (dayup ++ sp000, true, true)
      simp [processLine, hsec, hend, ht2, hsw, hr, n1, n2, n3, n4, n5, n6, n7]
  · have hst : startsWith (daydn ++ [' ']) l = true := hstart
    have hsw : startsWith daydnSp l = true := by
      rw [show daydnSp = daydn ++ [' '] from by decide]
      exact hst
    have n1 : startsWith dayupSp l = false :=
      startsWith_excl l daydnSp dayupSp (by decide) (by decide) hsw
    have n2 : startsWith wkupSp l = false :=
      startsWith_excl l daydnSp wkupSp (by decide) (by decide) hsw
    have n3 : startsWith wkdnSp l = false :=
      startsWith_excl l daydnSp wkdnSp (by decide) (by decide) hsw
    have n4 : startsWith monthupSp l = false :=
      startsWith_excl l daydnSp monthupSp (by decide) (by decide) hsw
    have n5 : startsWith monthdnSp l = false :=
      startsWith_excl l daydnSp monthdnSp (by decide) (by decide) hsw
    have n6 : startsWith allupSp l = false :=
      startsWith_excl l daydnSp allupSp (by decide) (by decide) hsw
    have n7 : startsWith alldnSp l = false :=
      startsWith_excl l daydnSp alldnSp (by decide) (by decide) hsw
    constructor
    · intro hf
      have hf2 : fl.reset_day = false := hf
      simp [processLine, hsec, hend, hf2, n1, n2, n3, n4, n5, n6, n7]
    · intro ht hlen
      have ht2 : fl.reset_day = true := ht
      have hr : reset_stats_line l daydn = daydn ++ sp000 :=
        reset_eq_of_starts daydn l (by decide) (by decide) hst hlen
      show processLine fl true l = (daydn ++ sp000, true, true)
      simp [processLine, hsec, hend, ht2, hsw, hr, n1, n2, n3, n4, n5, n6, n7]
  · have hst : startsWith (wkup ++ [' ']) l = true := hstart
    have hsw : startsWith wkupSp l = true := by
      rw [show wkupSp = wkup ++ [' '] from by decide]
      exact hst
    have n1 : startsWith dayupSp l = false :=
      startsWith_excl l wkupSp dayupSp (by decide) (by decide) hsw
    have n2 : startsWith daydnSp l = false :=
      startsWith_excl l wkupSp daydnSp (by decide) (by decide) hsw
    have n3 : startsWith wkdnSp l = false :=
      startsWith_excl l wkupSp wkdnSp (by decide) (by decide) hsw
    have n4 : startsWith monthupSp l = false :=
      startsWith_excl l wkupSp monthupSp (by decide) (by decide) hsw
    have n5 : startsWith monthdnSp l = false :=
      startsWith_excl l wkupSp monthdnSp (by decide) (by decide) hsw
    have n6 : startsWith allupSp l = false :=
      startsWith_excl l wkupSp allupSp (by decide) (by decide) hsw
    have n7 : startsWith alldnSp l = false :=
      startsWith_excl l wkupSp alldnSp (by decide) (by decide) hsw
    constructor
    · intro hf
      have hf2 : fl.reset_week = false := hf
      simp [processLine, hsec, hend, hf2, n1, n2, n3, n4, n5, n6, n7]
    · intro ht hlen
      have ht2 : fl.reset_week = true := ht
      have hr : reset_stats_line l wkup = wkup ++ sp000 :=
        reset_eq_of_starts wkup l (by decide) (by decide) hst hlen
      show processLine fl true l = (wkup ++ sp000, true, true)
      simp [processLine, hsec, hend, ht2, hsw, hr, n1, n2, n3, n4, n5, n6, n7]
  · have hst : startsWith (wkdn ++ [' ']) l = true := hstart
    have hsw : startsWith wkdnSp l = true := by
      rw [show wkdnSp = wkdn ++ [' '] from by decide]
      exact hst
    have n1 : startsWith dayupSp l = false :=
      startsWith_excl l wkdnSp dayupSp (by decide) (by decide) hsw
    have n2 : startsWith daydnSp l = false :=
      startsWith_excl l wkdnSp daydnSp (by decide) (by decide) hsw
    have n3 : startsWith wkupSp l = false :=
      startsWith_excl l wkdnSp wkupSp (by decide) (by decide) hsw
    have n4 : startsWith monthupSp l = false :=
      startsWith_excl l wkdnSp monthupSp (by decide) (by decide) hsw
    have n5 : startsWith monthdnSp l = false :=
      startsWith_excl l wkdnSp monthdnSp (by decide) (by decide) hsw
    have n6 : startsWith allupSp l = false :=
      startsWith_excl l wkdnSp allupSp (by decide) (by decide) hsw
    have n7 : startsWith alldnSp l = false :=
      startsWith_excl l wkdnSp alldnSp (by decide) (by decide) hsw
    constructor
    · intro hf
      have hf2 : fl.reset_week = false := hf
      simp [processLine, hsec, hend, hf2, n1, n2, n3, n4, n5, n6, n7]
    · intro ht hlen
      have ht2 : fl.reset_week = true := ht
      have hr : reset_stats_line l wkdn = wkdn ++ sp000 :=
        reset_eq_of_starts wkdn l (by decide) (by decide) hst hlen
      show processLine fl true l = (wkdn ++ sp000, true, true)
      simp [processLine, hsec, hend, ht2, hsw, hr, n1, n2, n3, n4, n5, n6, n7]
  · have hst : startsWith (monthup ++ [' ']) l = true := hstart
    have hsw : startsWith monthupSp l = true := by
      rw [show monthupSp = monthup ++ [' '] from by decide]
      exact hst
    have n1 : startsWith dayupSp l = false :=
      startsWith_excl l monthupSp dayupSp (by decide) (by decide) hsw
    have n2 : startsWith daydnSp l = false :=
      startsWith_excl l monthupSp daydnSp (by decide) (by decide) hsw
    have n3 : startsWith wkupSp l = false :=
      startsWith_excl l monthupSp wkupSp (by decide) (by decide) hsw
    have n4 : startsWith wkdnSp l = false :=
      startsWith_excl l monthupSp wkdnSp (by decide) (by decide) hsw
    have n5 : startsWith monthdnSp l = false :=
      startsWith_excl l monthupSp monthdnSp (by decide) (by decide) hsw
    have n6 : startsWith allupSp l = false :=
      startsWith_excl l monthupSp allupSp (by decide) (by decide) hsw
    have n7 : startsWith alldnSp l = false :=
      startsWith_excl l monthupSp alldnSp (by decide) (by decide) hsw
    constructor
    · intro hf
      have hf2 : fl.reset_month = false := hf
      simp [processLine, hsec, hend, hf2, n1, n2, n3, n4, n5, n6, n7]
    · intro ht hlen
      have ht2 : fl.reset_month = true := ht
      have hr : reset_stats_line l monthup = monthup ++ sp000 :=
        reset_eq_of_starts monthup l (by decide) (by decide) hst hlen
      show processLine fl true l = (monthup ++ sp000, true, true)
      simp [processLine, hsec, hend, ht2, hsw, hr, n1, n2, n3, n4, n5, n6, n7]
  · have hst : startsWith (monthdn ++ [' ']) l = true := hstart
    have hsw : startsWith monthdnSp l = true := by
      rw [show monthdnSp = monthdn ++ [' '] from by decide]
      exact hst
    have n1 : startsWith dayupSp l = false :=
      startsWith_excl l monthdnSp dayupSp (by decide) (by decide) hsw
    have n2 : startsWith daydnSp l = false :=
      startsWith_excl l monthdnSp daydnSp (by decide) (by decide) hsw
    have n3 : startsWith wkupSp l = false :=
      startsWith_excl l monthdnSp wkupSp (by decide) (by decide) hsw
    have n4 : startsWith wkdnSp l = false :=
      startsWith_excl l monthdnSp wkdnSp (by decide) (by decide) hsw
    have n5 : startsWith monthupSp l = false :=
      startsWith_excl l monthdnSp monthupSp (by decide) (by decide) hsw
    have n6 : startsWith allupSp l = false :=
      startsWith_excl l monthdnSp allupSp (by decide) (by decide) hsw
    have n7 : startsWith alldnSp l = false :=
      startsWith_excl l monthdnSp alldnSp (by decide) (by decide) hsw
    constructor
    · intro hf
      have hf2 : fl.reset_month = false := hf
      simp [processLine, hsec, hend, hf2, n1, n2, n3, n4, n5, n6, n7]
    · intro ht hlen
      have ht2 : fl.reset_month = true := ht
      have hr : reset_stats_line l monthdn = monthdn ++ sp000 :=
        reset_eq_of_starts monthdn l (by decide) (by decide) hst hlen
      show processLine fl true l = (monthdn ++ sp000, true, true)
      simp [processLine, hsec, hend, ht2, hsw, hr, n1, n2, n3, n4, n5, n6, n7]
  · have hst : startsWith (allup ++ [' ']) l = true := hstart
    have hsw : startsWith allupSp l = true := by
      rw [show allupSp = allup ++ [' '] from by decide]
      exact hst
    have n1 : startsWith dayupSp l = false :=
      startsWith_excl l allupSp dayupSp (by decide) (by decide) hsw
    have n2 : startsWith daydnSp l = false :=
      startsWith_excl l allupSp daydnSp (by decide) (by decide) hsw
    have n3 : startsWith wkupSp l = false :=
      startsWith_excl l allupSp wkupSp (by decide) (by decide) hsw
    have n4 : startsWith wkdnSp l = false :=
      startsWith_excl l allupSp wkdnSp (by decide) (by decide) hsw
    have n5 : startsWith monthupSp l = false :=
      startsWith_excl l allupSp monthupSp (by decide) (by decide) hsw
    have n6 : startsWith monthdnSp l = false :=
      startsWith_excl l allupSp monthdnSp (by decide) (by decide) hsw
    have n7 : startsWith alldnSp l = false :=
      startsWith_excl l allupSp alldnSp (by decide) (by decide) hsw
    constructor
    · intro hf
      have hf2 : fl.reset_all = false := hf
      simp [processLine, hsec, hend, hf2, n1, n2, n3, n4, n5, n6, n7]
    · intro ht hlen
      have ht2 : fl.reset_all = true := ht
      have hr : reset_stats_line l allup = allup ++ sp000 :=
        reset_eq_of_starts allup l (by decide) (by decide) hst hlen
      show processLine fl true l = (allup ++ sp000, true, true)
      simp [processLine, hsec, hend, ht2, hsw, hr, n1, n2, n3, n4, n5, n6, n7]
  · have hst : startsWith (alldn ++ [' ']) l = true := hstart
    have hsw : startsWith alldnSp l = true := by
      rw [show alldnSp = alldn ++ [' '] from by decide]
      exact hst
    have n1 : startsWith dayupSp l = false :=
      startsWith_excl l alldnSp dayupSp (by decide) (by decide) hsw
    have n2 : startsWith daydnSp l = false :=
      startsWith_excl l alldnSp daydnSp (by decide) (by decide) hsw
    have n3 : startsWith wkupSp l = false :=
      startsWith_excl l alldnSp wkupSp (by decide) (by decide) hsw
    have n4 : startsWith wkdnSp l = false :=
      startsWith_excl l alldnSp wkdnSp (by decide) (by decide) hsw
    have n5 : startsWith monthupSp l = false :=
      startsWith_excl l alldnSp monthupSp (by decide) (by decide) hsw
    have n6 : startsWith monthdnSp l = false :=
      startsWith_excl l alldnSp monthdnSp (by decide) (by decide) hsw
    have n7 : startsWith allupSp l = false :=
      startsWith_excl l alldnSp allupSp (by decide) (by decide) hsw
    constructor
    · intro hf
      have hf2 : fl.reset_all = false := hf
      simp [processLine, hsec, hend, hf2, n1, n2, n3, n4, n5, n6, n7]
    · intro ht hlen
      have ht2 : fl.reset_all = true := ht
      have hr : reset_stats_line l alldn = alldn ++ sp000 :=
        reset_eq_of_starts alldn l (by decide) (by decide) hst hlen
      show processLine fl true l = (alldn ++ sp000, true, true)
      simp [processLine, hsec, hend, ht2, hsw, hr, n1, n2, n3, n4, n5, n6, n7]

theorem processLines_length (fl : Flags) : ∀ (ls : List (List Char)) (s : Bool),
    ((processLines fl s ls).1).length = ls.length := by
  intro ls
  induction ls with
  | nil => intro s; rfl
  | cons l ls ih => intro s; simp [processLines, ih]

theorem processLines_getD (fl : Flags) : ∀ (ls : List (List Char)) (s : Bool) (i : Nat),
    i < ls.length →
    (processLines fl s ls).1.getD i [] =
      (processLine fl (stateAt fl s ls i) (ls.getD i [])).1 := by
  intro ls
  induction ls with
  | nil => intro s i h; simp at h
  | cons l ls ih =>
    intro s i h
    cases i with
    | zero => simp [processLines, stateAt]
    | succ n =>
      have hn : n < ls.length := by simpa using h
      simpa [processLines, stateAt] using ih (processLine fl s l).2.1 n hn

theorem processLines_modified_iff (fl : Flags) : ∀ (ls : List (List Char)) (s : Bool),
    (processLines fl s ls).2 = true ↔
      ∃ i, i < ls.length ∧
        (processLine fl (stateAt fl s ls i) (ls.getD i [])).2.2 = true := by
  intro ls
  induction ls with
  | nil => intro s; simp [processLines]
  | cons l ls ih =>
    intro s
    simp only [processLines, Bool.or_eq_true]
    constructor
    · rintro (hf | hrest)
      · exact ⟨0, by simp, by simpa [stateAt] using hf⟩
      · obtain ⟨i, hi, hfi⟩ := (ih _).mp hrest
        exact ⟨i + 1, by simpa using hi, by simpa [stateAt] using hfi⟩
    · rintro ⟨i, hi, hfi⟩
      cases i with
      | zero => exact Or.inl (by simpa [stateAt] using hfi)
      | succ n =>
        refine Or.inr ((ih _).mpr ⟨n, ?_, ?_⟩)
        · simpa using hi
        · simpa [stateAt] using hfi

theorem processLines_not_modified (fl : Flags) : ∀ (ls : List (List Char)) (s : Bool),
    (processLines fl s ls).2 = false → (processLines fl s ls).1 = ls := by
  intro ls
  induction ls with
  | nil => intro s _; rfl
  | cons l ls ih =>
    intro s h
    have h1 : (processLine fl s l).2.2 = false := by
      cases hx : (processLine fl s l).2.2 <;> simp_all [processLines]
    have h2 : (processLines fl (processLine fl s l).2.1 ls).2 = false := by
      cases hx : (processLines fl (processLine fl s l).2.1 ls).2 <;> simp_all [processLines]
    show (processLine fl s l).1 :: (processLines fl (processLine fl s l).2.1 ls).1 = l :: ls
    rw [processLine_not_fired fl s l h1, ih _ h2]

theorem processLines_idem (fl : Flags) : ∀ (ls : List (List Char)) (s : Bool),
    processLines fl s (processLines fl s ls).1 = processLines fl s ls := by
  intro ls
  induction ls with
  | nil => intro s; rfl
  | cons l ls ih =>
    intro s
    have hl := processLine_idem fl s l
    show processLines fl s
        ((processLine fl s l).1 :: (processLines fl (processLine fl s l).2.1 ls).1) =
      ((processLine fl s l).1 :: (processLines fl (processLine fl s l).2.1 ls).1,
        (processLine fl s l).2.2 || (processLines fl (processLine fl s l).2.1 ls).2)
    simp only [processLines]
    rw [hl, ih]

theorem processLine_none (s : Bool) (l : List Char) :
    (processLine noneFlags s l).1 = l ∧ (processLine noneFlags s l).2.2 = false := by
  by_cases hsec : containsSub secTag l = true
  · simp [processLine, hsec]
  · by_cases hend : containsSub endSecTag l = true
    · simp [processLine, hsec, hend]
    · cases s <;> simp [processLine, hsec, hend, noneFlags]

theorem processLines_none : ∀ (ls : List (List Char)) (s : Bool),
    processLines noneFlags s ls = (ls, false) := by
  intro ls
  induction ls with
  | nil => intro s; rfl
  | cons l ls ih =>
    intro s
    show ((processLine noneFlags s l).1 :: (processLines noneFlags (processLine noneFlags s l).2.1 ls).1,
      (processLine noneFlags s l).2.2 || (processLines noneFlags (processLine noneFlags s l).2.1 ls).2) = (l :: ls, false)
    rw [ih, (processLine_none s l).1, (processLine_none s l).2]
    simp

/-- C1 counterexample: on the record [SECTION] line followed by the malformed
counter line DAYUP 5, with the day flag set, the dispatch branch fires but the
line resetter leaves the short line unchanged, so zero output lines differ
from the input, yet the returned modified flag is true (and the source then
rewrites the file).  This refutes the claim that modified is reported iff at
least one output line differs. -/
theorem c1_counterexample :
    (process_userfile dayFlags [secLine, malDayLine]).2 = true ∧
    (process_userfile dayFlags [secLine, malDayLine]).1 = [secLine, malDayLine] := by
  decide

/-- C1 (amended): for every record and selector, the Record Processor reports
the record as modified if and only if at least one in-section dispatch branch
fired (governing flag set and exact prefix match); a fired branch can leave
the line text unchanged, so the flag can be true with zero changed lines.  In
particular, if the flag is false the output equals the input line for line and
the file is not rewritten. -/
theorem c1_modified_iff_branch_fired (fl : Flags) (lines : List (List Char)) :
    ((process_userfile fl lines).2 = true ↔
      ∃ i, i < lines.length ∧
        (processLine fl (stateAt fl false lines i) (lines.getD i [])).2.2 = true) ∧
    ((process_userfile fl lines).2 = false → (process_userfile fl lines).1 = lines) :=
  ⟨processLines_modified_iff fl lines false, processLines_not_modified fl lines false⟩

/-- Witness for C1 at a concrete input: a record with a counter line outside
any section is reported unmodified and returned unchanged. -/
theorem c1_witness :
    (process_userfile dayFlags [exDayLine]).1 = [exDayLine] :=
  (c1_modified_iff_branch_fired dayFlags [exDayLine]).2 (by decide)

/-- C2 counterexample: running the processor with the day flag on the record
[SECTION] followed by DAYUP 1 2 3 and then running it again on the output
yields a modified flag of true the second time, not false: the already-reset
line DAYUP 0 0 0 still fires its dispatch branch.  This refutes the claim
that the second application yields wasModified = false. -/
theorem c2_counterexample :
    (process_userfile dayFlags (process_userfile dayFlags [secLine, exDayLine]).1).2 = true := by
  decide

/-- C2 (amended): applying the Record Processor a second time to the output
of a first application returns exactly the first result: the output is
byte-identical to the first output, and the modified flag equals the first
flag (which stays true, not false, whenever an already-reset line still fires
an eligible branch). -/
theorem c2_second_run_identical (fl : Flags) (lines : List (List Char)) :
    process_userfile fl (process_userfile fl lines).1 = process_userfile fl lines :=
  processLines_idem fl lines false

/-- C3: for every line and every tag among the eight prefixes, the Line
Resetter returns the first whitespace-delimited token followed by 0 0 0 and a
newline when the line contains the tag as a substring and splits into 4 or
more whitespace tokens (discarding any extra trailing fields), and returns
the line verbatim unchanged otherwise, including lines with fewer than 4
tokens. -/
theorem c3_reset_stats_line_spec (line tag : List Char) (htag : tag ∈ resetTags) :
    reset_stats_line line tag =
      if containsSub tag line = true ∧ 4 ≤ (pysplit line).length then
        (pysplit line).headD [] ++ sp000
      else line := by
  unfold reset_stats_line
  by_cases hc : containsSub tag line = true
  · by_cases hl : 4 ≤ (pysplit line).length
    · simp [hc, hl]
    · simp [hc, hl]
  · simp [hc]

/-- Witness for C3 at the concrete line DAYUP 5 102400 3600 with tag
DAYUP. -/
theorem c3_witness :
    reset_stats_line ("DAYUP 5 102400 3600\n".toList) dayup =
      (if containsSub dayup ("DAYUP 5 102400 3600\n".toList) = true ∧
          4 ≤ (pysplit ("DAYUP 5 102400 3600\n".toList)).length then
        (pysplit ("DAYUP 5 102400 3600\n".toList)).headD [] ++ sp000
      else "DAYUP 5 102400 3600\n".toList) :=
  c3_reset_stats_line_spec ("DAYUP 5 102400 3600\n".toList) dayup (by decide)

/-- C4: for every record, every selector, and every line processed outside a
SECTION region as tracked by the single in_section toggle (state false before
the line, or the line is itself one of the two markers), the Record Processor
emits that line unchanged, regardless of its prefix. -/
theorem c4_outside_section_unchanged (fl : Flags) (lines : List (List Char)) (i : Nat)
    (h : i < lines.length)
    (houtside : stateAt fl false lines i = false ∨
      containsSub secTag (lines.getD i []) = true ∨
      containsSub endSecTag (lines.getD i []) = true) :
    (process_userfile fl lines).1.getD i [] = lines.getD i [] := by
  unfold process_userfile
  rw [processLines_getD fl lines false i h]
  exact processLine_outside fl (stateAt fl false lines i) (lines.getD i []) houtside

/-- Witness for C4 at a concrete record whose only line lies outside any
section. -/
theorem c4_witness :
    (process_userfile dayFlags [exDayLine]).1.getD 0 [] = [exDayLine].getD 0 [] :=
  c4_outside_section_unchanged dayFlags [exDayLine] 0 (by decide) (Or.inl (by decide))

/-- C5: for every in-section counter line (in_section true, not a marker
line, starting with one of the eight prefix tokens followed by a space): if
the flag governing its prefix token is unset the output line equals the input
line whatever the other flags are, so a line matching one prefix token is
never altered by a different token flag; and if the governing flag is set and
the line is well-formed (4 or more tokens) the output is the tag followed by
0 0 0 and a newline. -/
theorem c5_counter_line_selectivity (fl : Flags) (lines : List (List Char)) (i : Nat)
    (p : Bool × List Char) (hp : p ∈ dispatchList fl) (h : i < lines.length)
    (hstate : stateAt fl false lines i = true)
    (hsec : containsSub secTag (lines.getD i []) = false)
    (hend : containsSub endSecTag (lines.getD i []) = false)
    (hstart : startsWith (p.2 ++ [' ']) (lines.getD i []) = true) :
    (p.1 = false → (process_userfile fl lines).1.getD i [] = lines.getD i []) ∧
    (p.1 = true → 4 ≤ (pysplit (lines.getD i [])).length →
      (process_userfile fl lines).1.getD i [] = p.2 ++ sp000) := by
  have hg := processLines_getD fl lines false i h
  have hc := processLine_counter fl (lines.getD i []) p hp hsec hend hstart
  constructor
  · intro hf
    unfold process_userfile
    rw [hg, hstate, hc.1 hf]
  · intro ht hlen
    unfold process_userfile
    rw [hg, hstate, hc.2 ht hlen]

/-- Witness for C5 at the concrete record [SECTION] then DAYUP 1 2 3 with
the day flag set, at index 1 with the dayup dispatch entry. -/
theorem c5_witness :
    ((true, dayup).1 = false →
      (process_userfile dayFlags [secLine, exDayLine]).1.getD 1 [] =
        [secLine, exDayLine].getD 1 []) ∧
    ((true, dayup).1 = true → 4 ≤ (pysplit ([secLine, exDayLine].getD 1 [])).length →
      (process_userfile dayFlags [secLine, exDayLine]).1.getD 1 [] =
        (true, dayup).2 ++ sp000) :=
  c5_counter_line_selectivity dayFlags [secLine, exDayLine] 1 (true, dayup)
    (by decide) (by decide) (by decide) (by decide) (by decide) (by decide)

/-- C6: for every record and selector, the output line sequence has exactly
the same length as the input, and the line at each index is derived from the
input line at the same index by the per-line transform, so the transform
never adds, removes, or reorders lines. -/
theorem c6_length_and_pointwise (fl : Flags) (lines : List (List Char)) (i : Nat)
    (h : i < lines.length) :
    (process_userfile fl lines).1.length = lines.length ∧
    (process_userfile fl lines).1.getD i [] =
      (processLine fl (stateAt fl false lines i) (lines.getD i [])).1 :=
  ⟨processLines_length fl lines false, by
    unfold process_userfile
    exact processLines_getD fl lines false i h⟩

/-- Witness for C6 at a concrete two-line record, index 0. -/
theorem c6_witness :
    (process_userfile dayFlags [secLine, exDayLine]).1.length = [secLine, exDayLine].length ∧
    (process_userfile dayFlags [secLine, exDayLine]).1.getD 0 [] =
      (processLine dayFlags (stateAt dayFlags false [secLine, exDayLine] 0)
        ([secLine, exDayLine].getD 0 [])).1 :=
  c6_length_and_pointwise dayFlags [secLine, exDayLine] 0 (by decide)

/-- C7: when no explicit reset flag is supplied, the derived default
selector always sets the day flag, sets the week flag exactly when the
current weekday equals the configured week-start day (Sunday by default,
Monday when the -e option is given; Python weekday numbering with Monday = 0
and Sunday = 6), and sets the month flag exactly when the current day of the
month is 1. -/
theorem c7_default_selector (monday : Bool) (weekday dayOfMonth : Nat) :
    (defaultSelector monday weekday dayOfMonth).reset_day = true ∧
    ((defaultSelector monday weekday dayOfMonth).reset_week = true ↔
      weekday = (if monday then mondayIndex else sundayIndex)) ∧
    ((defaultSelector monday weekday dayOfMonth).reset_month = true ↔ dayOfMonth = 1) := by
  refine ⟨rfl, ?_, ?_⟩ <;> simp [defaultSelector]

/-- C8: if reading one record raises an I/O error, process_userfile reports
the record path together with the failure description and returns false; in
the batch loop the success counter is therefore not incremented for that
record and processing continues with the remaining records unchanged. -/
theorem c8_io_error_skips_record (fl : Flags) (path e : List Char)
    (rest : List (List Char × Except (List Char) (List (List Char)))) :
    process_userfile_run path (Except.error e) fl = (false, some (errorReport path e)) ∧
    runBatch fl ((path, Except.error e) :: rest) =
      ((runBatch fl rest).1, errorReport path e :: (runBatch fl rest).2) := by
  constructor
  · rfl
  · show ((if (false : Bool) then 1 else 0) + (runBatch fl rest).1,
        (some (errorReport path e)).toList ++ (runBatch fl rest).2) =
      ((runBatch fl rest).1, errorReport path e :: (runBatch fl rest).2)
    simp

/-- C9: with all four reset flags false the Record Processor is the
identity: it returns the line sequence unchanged and reports modified =
false, for every record. -/
theorem c9_empty_selector_identity (lines : List (List Char)) :
    process_userfile noneFlags lines = (lines, false) :=
  processLines_none lines false

/-- C10: a line containing both SECTION and ENDSECTION markers as
substrings is treated as a section start (the new in_section state is true),
because the SECTION containment test is evaluated first; the line itself is
emitted unchanged and no dispatch branch fires. -/
theorem c10_both_markers_starts_section (fl : Flags) (s : Bool) (l : List Char)
    (h1 : containsSub secTag l = true) (h2 : containsSub endSecTag l = true) :
    processLine fl s l = (l, true, false) := by
  simp [processLine, h1]

/-- Witness for C10 at the concrete line [SECTION][ENDSECTION]. -/
theorem c10_witness :
    processLine dayFlags false ("[SECTION][ENDSECTION]\n".toList) =
      ("[SECTION][ENDSECTION]\n".toList, true, false) :=
  c10_both_markers_starts_section dayFlags false ("[SECTION][ENDSECTION]\n".toList)
    (by decide) (by decide)

end PyReset
